import Mathlib

/-!
# Verification of the chess-platform service layer

A shallow embedding of the game/puzzle state-transition core of the
chess-learning backend (`app/services/game_service.py`,
`app/services/puzzle_service.py`, `app/services/chess_engine.py`,
`app/api/games.py`), together with proofs of the specified properties.

The chess-rules capability (the `python-chess` library: position parsing,
legal-move enumeration, move application, terminal detection) is an external
collaborator per the spec; it is modelled as an abstract `ChessRules`
structure carrying exactly the operations the service layer invokes, plus the
round-trip contract the spec assigns to it.  The service-layer functions are
translated from the Python source line by line; every theorem is stated for
an arbitrary rules capability and witnessed on a small executable instance.
-/

/-- The Position capability contract (spec section 6; realized by
`python-chess` in the source).  `Pos` is a parsed position, `Move` a parsed
move.  Field names follow the library operations used by the service layer:
`parseFen`/`fenOf` are `chess.Board(fen)` / `board.fen()`, `parseUci`/`uciOf`
are `chess.Move.from_uci` / `move.uci()`, `isLegal` is
`move in board.legal_moves`, `push` is `board.push` (which, as in the
library, applies a parsed move without re-checking legality), `whiteTurn` is
`board.turn`, and the terminal predicates and `halfmoveClock` are the board
queries used by `ChessEngine.get_game_result`.  `toPgn` is the notation
generator used by `GameService._generate_pgn`.  The two equations are the
"round-trip exact" serialization contract of spec section 6; they hold of the
library at the granularity the service uses it (a fresh board is re-parsed
from the stored FEN on every call). -/
structure ChessRules where
  Pos : Type
  Move : Type
  startPos : Pos
  fenOf : Pos → String
  parseFen : String → Option Pos
  parseUci : String → Option Move
  uciOf : Move → String
  isLegal : Pos → Move → Bool
  push : Pos → Move → Pos
  whiteTurn : Pos → Bool
  isCheckmate : Pos → Bool
  isStalemate : Pos → Bool
  isInsufficientMaterial : Pos → Bool
  isRepetition3 : Pos → Bool
  halfmoveClock : Pos → Nat
  toPgn : List String → String
  parseFen_fenOf : ∀ p, parseFen (fenOf p) = some p
  parseUci_uciOf : ∀ m, parseUci (uciOf m) = some m

/-- `GameStatus` enumeration from `app/models/game.py`. -/
inductive GameStatus where
  | inProgress
  | whiteWon
  | blackWon
  | draw
  | abandoned
deriving DecidableEq, Repr

/-- The `Game` row (`app/models/game.py`).  Timestamps are modelled as
natural numbers; identity columns and relationship metadata not consulted by
the service logic are omitted. -/
structure Game where
  whitePlayerId : Option Nat
  blackPlayerId : Option Nat
  pgn : Option String
  status : GameStatus
  endedAt : Option Nat
deriving DecidableEq, Repr

/-- The `GameSession` row (`app/models/game.py`).  The source stores
`move_history` as a JSON-encoded array of UCI strings and decodes it with
`json.loads` on every access; the field is modelled as the decoded list. -/
structure GameSession where
  current_fen : String
  move_history : List String
  last_move_at : Nat
deriving DecidableEq, Repr

/-- A game together with its current session — the persisted state a single
game's orchestrator operations load and mutate.  The `NotFound` lookups of
the service (`get_game`, `get_game_session`) are modelled by the caller
supplying the loaded pair. -/
structure GState where
  game : Game
  session : GameSession
deriving DecidableEq, Repr

/-- `ChessEngine.get_game_result` (`app/services/chess_engine.py`, lines
217-239): checkmate resolves to a win for the side that just moved
(`board.turn` names the checkmated side); stalemate, insufficient material,
threefold repetition, and a halfmove clock of at least 150 (the 75-move rule)
each resolve to a draw; otherwise the game continues. -/
def get_game_result (R : ChessRules) (board : R.Pos) : Option String :=
  if R.isCheckmate board then
    some (if R.whiteTurn board then "black_won" else "white_won")
  else if R.isStalemate board then some "draw"
  else if R.isInsufficientMaterial board then some "draw"
  else if R.isRepetition3 board then some "draw"
  else if 150 ≤ R.halfmoveClock board then some "draw"
  else none

/-- `GameService.create_game` (`app/services/game_service.py`, lines 26-65):
a fresh in-progress game with the supplied player ids (the service itself
does not consult `is_bot_game`), plus an initial session at the canonical
starting position with an empty move log. -/
def create_game (R : ChessRules) (white_player_id black_player_id : Option Nat)
    (is_bot_game : Bool) : GState :=
  { game :=
      { whitePlayerId := white_player_id
        blackPlayerId := black_player_id
        pgn := none
        status := GameStatus.inProgress
        endedAt := none }
    session :=
      { current_fen := R.fenOf R.startPos
        move_history := []
        last_move_at := 0 } }

/-- The `create_game` endpoint (`app/api/games.py`, lines 29-69): before
delegating to the service it forces the black-player id to `None` whenever
`is_bot_game` is set. -/
def api_create_game (R : ChessRules) (white_player_id black_player_id : Option Nat)
    (is_bot_game : Bool) : GState :=
  create_game R white_player_id
    (if is_bot_game then none else black_player_id) is_bot_game

/-- `GameService.make_move` (`app/services/game_service.py`, lines 97-221).
Returns the `(success, message, new_fen, bot_move)` tuple of the source
together with the persisted state after the call.  The engine's
`get_best_move` (a blocking external query whose exceptions the source
catches and treats as "no bot reply") is modelled by the oracle `bot`;
`datetime.now()` by the parameter `now`.  The `NotFound` branches for a
missing game or session are modelled by the caller supplying the loaded
state. -/
def make_move (R : ChessRules) (bot : R.Pos → Option R.Move) (now : Nat)
    (st : GState) (move_uci : String) :
    (Bool × String × Option String × Option String) × GState :=
  if st.game.status ≠ GameStatus.inProgress then
    ((false, "Game is not in progress", none, none), st)
  else
    match R.parseFen st.session.current_fen with
    | none => ((false, "Invalid board position", none, none), st)
    | some board =>
      match R.parseUci move_uci with
      | none => ((false, "Invalid move format", none, none), st)
      | some move =>
        if ¬ R.isLegal board move then
          ((false, "Invalid move", none, none), st)
        else
          let board1 := R.push board move
          let new_fen := R.fenOf board1
          let move_history := st.session.move_history ++ [move_uci]
          let st1 : GState :=
            { st with session :=
                { current_fen := new_fen
                  move_history := move_history
                  last_move_at := now } }
          match get_game_result R board1 with
          | some game_result =>
            let status :=
              if game_result = "white_won" then GameStatus.whiteWon
              else if game_result = "black_won" then GameStatus.blackWon
              else GameStatus.draw
            ((true, "Game ended: " ++ game_result, some new_fen, none),
             { st1 with game :=
                 { st1.game with
                     status := status
                     endedAt := some now
                     pgn := some (R.toPgn move_history) } })
          | none =>
            if st.game.blackPlayerId = none ∧ R.whiteTurn board1 = false then
              match bot board1 with
              | some bot_move_obj =>
                let bot_move := R.uciOf bot_move_obj
                let board2 := R.push board1 bot_move_obj
                let fen2 := R.fenOf board2
                let move_history2 := move_history ++ [bot_move]
                let st2 : GState :=
                  { st1 with session :=
                      { current_fen := fen2
                        move_history := move_history2
                        last_move_at := now } }
                match get_game_result R board2 with
                | some game_result2 =>
                  let status2 :=
                    if game_result2 = "black_won" then GameStatus.blackWon
                    else if game_result2 = "white_won" then GameStatus.whiteWon
                    else GameStatus.draw
                  ((true, "Game ended: " ++ game_result2, some fen2, some bot_move),
                   { st2 with game :=
                       { st2.game with
                           status := status2
                           endedAt := some now
                           pgn := some (R.toPgn move_history2) } })
                | none =>
                  ((true, "Move successful", some fen2, some bot_move), st2)
              | none =>
                ((true, "Move successful", some new_fen, none), st1)
            else
              ((true, "Move successful", some new_fen, none), st1)

/-- The replay loop of `GameService.undo_move` (lines 259-265), started at an
arbitrary position: parse each logged UCI string, returning `none` at the
first string `chess.Move.from_uci` rejects, and `board.push` each parsed move
— exactly as in the source, with no legality check. -/
def replayFrom (R : ChessRules) (board : R.Pos) : List String → Option R.Pos
  | [] => some board
  | move_uci :: rest =>
    match R.parseUci move_uci with
    | none => none
    | some move => replayFrom R (R.push board move) rest

/-- Replay of a stored move log from the canonical starting position
(`chess.Board()` in the source). -/
def replayO (R : ChessRules) (moves : List String) : Option R.Pos :=
  replayFrom R R.startPos moves

/-- Python's `lst[:-n]` slice, used by `undo_move` to drop the last
`num_moves` entries (for `n = 0` the slice is empty). -/
def dropLastPy (l : List String) (n : Nat) : List String :=
  if n = 0 then [] else l.take (l.length - n)

/-- `GameService.undo_move` (`app/services/game_service.py`, lines 224-284):
reject when fewer than `num_moves` moves were logged; otherwise rebuild the
position by replaying all but the last `num_moves` logged moves from the
starting position, failing if a logged string does not parse; persist the
truncated log and recomputed position; and reset a non-in-progress game to
in-progress, clearing its end timestamp and record. -/
def undo_move (R : ChessRules) (now : Nat) (st : GState) (num_moves : Nat) :
    (Bool × String × Option String) × GState :=
  let move_history := st.session.move_history
  if move_history.length < num_moves then
    ((false,
      "Not enough moves to undo. Only " ++ toString move_history.length ++
        " moves available.", none), st)
  else
    match replayO R (dropLastPy move_history num_moves) with
    | none => ((false, "Invalid move in history", none), st)
    | some board =>
      let new_fen := R.fenOf board
      let new_move_history := dropLastPy move_history num_moves
      let game1 :=
        if st.game.status ≠ GameStatus.inProgress then
          { st.game with
              status := GameStatus.inProgress
              endedAt := none
              pgn := none }
        else st.game
      ((true, "Undid " ++ toString num_moves ++ " move(s)", some new_fen),
       { game := game1
         session :=
           { current_fen := new_fen
             move_history := new_move_history
             last_move_at := now } })

/-- `PuzzleDifficulty` enumeration from `app/models/puzzle.py`. -/
inductive PuzzleDifficulty where
  | easy
  | medium
  | hard
  | expert
deriving DecidableEq, Repr

/-- The `Puzzle` row (`app/models/puzzle.py`).  The source stores the
solution as a JSON text column and decodes it with `json.loads`, falling back
to `[]` on a decode error; `moves = none` models an absent/undecodable
column, `some l` a successfully decoded array. -/
structure Puzzle where
  fen : String
  moves : Option (List String)
  difficulty : PuzzleDifficulty
deriving DecidableEq, Repr

/-- The `UserPuzzle` statistics row (`app/models/puzzle.py`).  The float
column `best_time_seconds` is modelled over `ℚ`. -/
structure UserPuzzle where
  user_id : Nat
  puzzle_id : Nat
  solved : Nat
  failed : Nat
  best_time_seconds : Option ℚ
  last_attempted_at : Option Nat
deriving DecidableEq, Repr

/-- Python truthiness of the optional `user_id` argument, as tested by
`if user_id:` in `attempt_puzzle` — both `None` and `0` are falsy. -/
def userTruthy : Option Nat → Bool
  | none => false
  | some uid => uid ≠ 0

/-- `PuzzleService._update_user_stats` (`app/services/puzzle_service.py`,
lines 148-184): create the row lazily with zeroed counters, increment the
solved or failed counter, and stamp the last-attempt time.  The row lookup is
modelled by the caller supplying the current `(user, puzzle)` row, if any. -/
def update_user_stats (now : Nat) (user_id puzzle_id : Nat)
    (row : Option UserPuzzle) (success : Bool) : UserPuzzle :=
  let user_puzzle :=
    match row with
    | some up => up
    | none =>
      { user_id := user_id
        puzzle_id := puzzle_id
        solved := 0
        failed := 0
        best_time_seconds := none
        last_attempted_at := none }
  let user_puzzle :=
    if success then { user_puzzle with solved := user_puzzle.solved + 1 }
    else { user_puzzle with failed := user_puzzle.failed + 1 }
  { user_puzzle with last_attempted_at := some now }

/-- The progress-reconstruction loop of `attempt_puzzle` (lines 104-114):
walk the solution from its start, pushing each move while it parses and is
legal, and stop at the first failure.  Returns the replayed position and
`current_move_index`, the count of moves pushed. -/
def puzzleReplay (R : ChessRules) (board : R.Pos) : List String → R.Pos × Nat
  | [] => (board, 0)
  | sol_move :: rest =>
    match R.parseUci sol_move with
    | none => (board, 0)
    | some move =>
      if R.isLegal board move then
        let res := puzzleReplay R (R.push board move) rest
        (res.1, res.2 + 1)
      else (board, 0)

/-- The decoded solution sequence of a puzzle: the `json.loads(puzzle.moves)`
of the source, whose decode failure (modelled by `moves = none`) falls back
to `[]`. -/
def solutionList (puzzle : Puzzle) : List String :=
  match puzzle.moves with
  | some l => l
  | none => []

/-- `PuzzleService.attempt_puzzle` (`app/services/puzzle_service.py`, lines
65-145).  Returns the source's `(correct, message, next_move, is_complete)`
tuple together with the `(user, puzzle)` statistics row after the call.  The
puzzle lookup is modelled by `puzzle?`, the statistics-row lookup by `stat?`;
the `ValueError` from `chess.Move.from_uci(move_uci)` caught by the source is
the `parseUci` failure branch. -/
def attempt_puzzle (R : ChessRules) (now : Nat) (puzzle_id : Nat)
    (puzzle? : Option Puzzle) (move_uci : String) (user_id : Option Nat)
    (stat? : Option UserPuzzle) :
    (Bool × String × Option String × Bool) × Option UserPuzzle :=
  match puzzle? with
  | none => ((false, "Puzzle not found", none, false), stat?)
  | some puzzle =>
    let solution_moves := solutionList puzzle
    if solution_moves = [] then
      ((false, "Invalid puzzle data", none, false), stat?)
    else
      match R.parseFen puzzle.fen with
      | none => ((false, "Invalid puzzle position", none, false), stat?)
      | some board =>
        let current_move_index := (puzzleReplay R board solution_moves).2
        if solution_moves.length ≤ current_move_index then
          ((false, "Puzzle already solved", none, true), stat?)
        else
          let expected_move := solution_moves.getD current_move_index ""
          match R.parseUci move_uci with
          | none => ((false, "Invalid move format", none, false), stat?)
          | some user_move =>
            if R.uciOf user_move = expected_move then
              let next_index := current_move_index + 1
              let is_complete := solution_moves.length ≤ next_index
              let next_move :=
                if is_complete then none
                else some (solution_moves.getD next_index "")
              let stat2 :=
                if userTruthy user_id then
                  some (update_user_stats now ((user_id).getD 0) puzzle_id stat? true)
                else stat?
              ((true, "Correct move!", next_move, is_complete), stat2)
            else
              let stat2 :=
                if userTruthy user_id then
                  some (update_user_stats now ((user_id).getD 0) puzzle_id stat? false)
                else stat?
              ((false, "Incorrect move. Try again!", none, false), stat2)

/-- Python truthiness of the optional float `best_time_seconds`, as tested by
the generator `... if up.best_time_seconds` in `get_user_stats` — both `None`
and `0.0` are falsy. -/
def truthyTime : Option ℚ → Option ℚ
  | none => none
  | some t => if t = 0 then none else some t

/-- Python's `min(sequence, default=None)` over the collected best times. -/
def pyMin : List ℚ → Option ℚ
  | [] => none
  | t :: rest =>
    match pyMin rest with
    | none => some t
    | some m => some (min t m)

/-- Python's `round(x, 2)`: round to the nearest multiple of 1/100. -/
def round2 (x : ℚ) : ℚ := (round (x * 100) : ℤ) / 100

/-- One step of the `puzzles_by_difficulty` dict accumulation of
`get_user_stats` (lines 217-225), with the insertion-ordered dict modelled as
an association list: add the counters to the entry for `d`, creating it at
the end when absent. -/
def bumpDiff (acc : List (PuzzleDifficulty × Nat × Nat)) (d : PuzzleDifficulty)
    (s f : Nat) : List (PuzzleDifficulty × Nat × Nat) :=
  match acc with
  | [] => [(d, s, f)]
  | (d0, s0, f0) :: rest =>
    if d0 = d then (d0, s0 + s, f0 + f) :: rest
    else (d0, s0, f0) :: bumpDiff rest d s f

/-- The `puzzles_by_difficulty` accumulation loop of `get_user_stats`
(lines 217-225): fold the user's rows, adding each row whose puzzle lookup
succeeds to the entry for that puzzle's difficulty and skipping rows whose
puzzle is missing. -/
def diffFold (lookup : Nat → Option Puzzle)
    (acc : List (PuzzleDifficulty × Nat × Nat)) :
    List UserPuzzle → List (PuzzleDifficulty × Nat × Nat)
  | [] => acc
  | up :: rest =>
    diffFold lookup
      (match lookup up.puzzle_id with
       | some puzzle => bumpDiff acc puzzle.difficulty up.solved up.failed
       | none => acc) rest

/-- Association-list lookup into the accumulated difficulty dict. -/
def lookupDiff (l : List (PuzzleDifficulty × Nat × Nat)) (d : PuzzleDifficulty) :
    Option (Nat × Nat) :=
  match l with
  | [] => none
  | (d0, s, f) :: rest => if d0 = d then some (s, f) else lookupDiff rest d

/-- The aggregate statistics returned by `get_user_stats`. -/
structure UserStats where
  user_id : Nat
  total_solved : Nat
  total_failed : Nat
  success_rate : ℚ
  best_time_seconds : Option ℚ
  puzzles_by_difficulty : List (PuzzleDifficulty × Nat × Nat)
deriving DecidableEq, Repr

/-- `PuzzleService.get_user_stats` (`app/services/puzzle_service.py`, lines
187-234): sum the solved and failed counters over the user's rows, compute
the success rate (zero when there are no attempts) rounded to two decimals,
take the minimum over the truthy best times, and accumulate per-difficulty
counter sums over the rows whose puzzle resolves — rows whose `get_puzzle`
lookup fails are skipped by the grouping loop.  The puzzle lookup is the
function `lookup`. -/
def get_user_stats (lookup : Nat → Option Puzzle) (user_id : Nat)
    (user_puzzles : List UserPuzzle) : UserStats :=
  let total_solved := (user_puzzles.map (fun up => up.solved)).sum
  let total_failed := (user_puzzles.map (fun up => up.failed)).sum
  let total_attempts := total_solved + total_failed
  let success_rate : ℚ :=
    if 0 < total_attempts then
      (total_solved : ℚ) / (total_attempts : ℚ) * 100
    else 0
  let best_time :=
    pyMin (user_puzzles.filterMap (fun up => truthyTime up.best_time_seconds))
  let by_difficulty := diffFold lookup [] user_puzzles
  { user_id := user_id
    total_solved := total_solved
    total_failed := total_failed
    success_rate := round2 success_rate
    best_time_seconds := best_time
    puzzles_by_difficulty := by_difficulty }

/-- States of a single game reachable through the orchestrator: creation
through the endpoint, followed by any interleaving of successful `make_move`
calls (under any engine oracle) and successful `undo_move` calls. -/
inductive Reachable (R : ChessRules) : GState → Prop
  | create (white_player_id black_player_id : Option Nat) (is_bot_game : Bool) :
      Reachable R (api_create_game R white_player_id black_player_id is_bot_game)
  | move (st : GState) (bot : R.Pos → Option R.Move) (now : Nat) (move_uci : String)
      (h : Reachable R st) (hs : (make_move R bot now st move_uci).1.1 = true) :
      Reachable R (make_move R bot now st move_uci).2
  | undo (st : GState) (now : Nat) (num_moves : Nat)
      (h : Reachable R st) (hs : (undo_move R now st num_moves).1.1 = true) :
      Reachable R (undo_move R now st num_moves).2

/-- The session consistency invariant (spec sections 3 and 8): replaying the
stored move log from the canonical starting position succeeds and reproduces
the stored position encoding exactly. -/
def SessionInv (R : ChessRules) (st : GState) : Prop :=
  ∃ p, replayO R st.session.move_history = some p ∧
    R.fenOf p = st.session.current_fen

/-! ## A small executable rules instance

Witness evaluations instantiate the abstract capability with a miniature
two-move game: a position is the list of moves played, the moves are `false`
(serialized `"a"`, always legal) and `true` (serialized `"b"`, parseable but
never legal), white moves on even plies, and any three-ply position is
checkmate. -/

/-- Decode one serialized toy move. -/
def charToMove : Char → Option Bool
  | 'a' => some false
  | 'b' => some true
  | _ => none

/-- Decode a serialized toy position. -/
def decodeChars : List Char → Option (List Bool)
  | [] => some []
  | c :: cs =>
    match charToMove c, decodeChars cs with
    | some b, some bs => some (b :: bs)
    | _, _ => none

/-- Serialize one toy move. -/
def moveChar (b : Bool) : Char := if b then 'b' else 'a'

theorem decodeChars_encode (l : List Bool) :
    decodeChars (l.map moveChar) = some l := by
  induction l with
  | nil => rfl
  | cons b rest ih =>
    cases b <;> simp [moveChar, decodeChars, charToMove, ih]

/-- The miniature executable rules capability used by the witnesses. -/
@[reducible] def CR : ChessRules where
  Pos := List Bool
  Move := Bool
  startPos := []
  fenOf p := String.mk (p.map moveChar)
  parseFen s := decodeChars s.data
  parseUci s := if s = "a" then some false else if s = "b" then some true else none
  uciOf m := if m then "b" else "a"
  isLegal _ m := !m
  push p m := p ++ [m]
  whiteTurn p := p.length % 2 == 0
  isCheckmate p := p.length == 3
  isStalemate _ := false
  isInsufficientMaterial _ := false
  isRepetition3 _ := false
  halfmoveClock _ := 0
  toPgn _ := ""
  parseFen_fenOf := by intro p; exact decodeChars_encode p
  parseUci_uciOf := by intro m; cases m <;> rfl

/-- A toy engine oracle: reply with the always-legal move at one-ply
positions, produce nothing elsewhere. -/
def bot0 : CR.Pos → Option CR.Move :=
  fun p => if p.length == 1 then some false else none

/-! ## Helper lemmas about replay -/

theorem replayFrom_append (R : ChessRules) (l l' : List String) (b : R.Pos) :
    replayFrom R b (l ++ l') =
      (replayFrom R b l).bind (fun p => replayFrom R p l') := by
  induction l generalizing b with
  | nil => rfl
  | cons m rest ih =>
    simp only [List.cons_append, replayFrom]
    cases R.parseUci m with
    | none => rfl
    | some mv => exact ih (R.push b mv)

theorem replayO_snoc (R : ChessRules) (l : List String) (u : String) (p : R.Pos)
    (h : replayO R l = some p) :
    replayO R (l ++ [u]) = (R.parseUci u).map (fun mv => R.push p mv) := by
  unfold replayO at h ⊢
  rw [replayFrom_append, h]
  simp only [Option.bind_some, replayFrom]
  cases R.parseUci u with
  | none => rfl
  | some mv => rfl

theorem replayFrom_isSome (R : ChessRules) (l : List String) (b : R.Pos)
    (h : ∀ m ∈ l, (R.parseUci m).isSome) :
    ∃ p, replayFrom R b l = some p := by
  induction l generalizing b with
  | nil => exact ⟨b, rfl⟩
  | cons m rest ih =>
    have hm := h m (List.mem_cons_self m rest)
    simp only [replayFrom]
    cases hu : R.parseUci m with
    | none => rw [hu] at hm; simp [Option.isSome] at hm
    | some mv =>
      exact ih (R.push b mv) (fun x hx => h x (List.mem_cons_of_mem m hx))

theorem replayFrom_none_of_bad (R : ChessRules) (l : List String) (b : R.Pos)
    (h : ∃ m ∈ l, R.parseUci m = none) :
    replayFrom R b l = none := by
  induction l generalizing b with
  | nil => rcases h with ⟨m, hm, _⟩; cases hm
  | cons m rest ih =>
    rcases h with ⟨x, hx, hbad⟩
    simp only [replayFrom]
    rcases List.mem_cons.mp hx with rfl | hx'
    · rw [hbad]
    · cases hu : R.parseUci m with
      | none => rfl
      | some mv => exact ih (R.push b mv) ⟨x, hx', hbad⟩

/-! ## Preservation of the session invariant -/

theorem make_move_preserves_inv (R : ChessRules) (bot : R.Pos → Option R.Move)
    (now : Nat) (st : GState) (move_uci : String) (hinv : SessionInv R st) :
    SessionInv R (make_move R bot now st move_uci).2 := by
  obtain ⟨p, hrep, hfen⟩ := hinv
  have hpf : R.parseFen st.session.current_fen = some p := by
    rw [← hfen]; exact R.parseFen_fenOf p
  unfold SessionInv
  simp only [make_move]
  split
  · exact ⟨p, hrep, hfen⟩
  split
  · exact ⟨p, hrep, hfen⟩
  rename_i board heqb
  rw [hpf] at heqb
  injection heqb with heqb
  subst heqb
  split
  · exact ⟨p, hrep, hfen⟩
  rename_i move hequ
  split
  · exact ⟨p, hrep, hfen⟩
  have hrep1 : replayO R (st.session.move_history ++ [move_uci]) =
      some (R.push p move) := by
    rw [replayO_snoc R _ _ p hrep, hequ]; rfl
  split
  · exact ⟨R.push p move, hrep1, rfl⟩
  · split
    · split
      · rename_i botm heqbot
        have hrep2 : replayO R
            ((st.session.move_history ++ [move_uci]) ++ [R.uciOf botm]) =
            some (R.push (R.push p move) botm) := by
          rw [replayO_snoc R _ _ _ hrep1, R.parseUci_uciOf]; rfl
        split
        · exact ⟨R.push (R.push p move) botm, hrep2, rfl⟩
        · exact ⟨R.push (R.push p move) botm, hrep2, rfl⟩
      · exact ⟨R.push p move, hrep1, rfl⟩
    · exact ⟨R.push p move, hrep1, rfl⟩

theorem undo_move_preserves_inv (R : ChessRules) (now : Nat) (st : GState)
    (num_moves : Nat) (hinv : SessionInv R st) :
    SessionInv R (undo_move R now st num_moves).2 := by
  obtain ⟨p, hrep, hfen⟩ := hinv
  unfold SessionInv
  simp only [undo_move]
  split
  · exact ⟨p, hrep, hfen⟩
  · split
    · exact ⟨p, hrep, hfen⟩
    · rename_i board heq
      exact ⟨board, heq, rfl⟩

/-- C1: for every reachable game state — after `CreateGame`, after every
successful `MakeMove` (bot reply included), and after every successful
`UndoMove` — replaying the stored move log in order from the canonical
starting position succeeds and reproduces the stored position encoding
exactly. -/
theorem C1_session_replay_invariant (R : ChessRules) (st : GState)
    (h : Reachable R st) :
    ∃ p, replayO R st.session.move_history = some p ∧
      R.fenOf p = st.session.current_fen := by
  induction h with
  | create white_player_id black_player_id is_bot_game =>
    exact ⟨R.startPos, rfl, rfl⟩
  | move st bot now move_uci h hs ih =>
    exact make_move_preserves_inv R bot now st move_uci ih
  | undo st now num_moves h hs ih =>
    exact undo_move_preserves_inv R now st num_moves ih

/-- A reachable state of the toy instance: a fresh bot game after one human
ply answered by one bot ply. -/
def stAfterMove : GState :=
  (make_move CR bot0 7 (api_create_game CR (some 1) none true) "a").2

theorem C1_session_replay_invariant_witness :
    ∃ p, replayO CR stAfterMove.session.move_history = some p ∧
      CR.fenOf p = stAfterMove.session.current_fen :=
  C1_session_replay_invariant CR stAfterMove
    (Reachable.move _ bot0 7 "a" (Reachable.create (some 1) none true) (by decide))

/-! ## Error paths and the move protocol -/

/-- C4: a `MakeMove` whose submitted move is malformed (`Invalid move
format`) or not among the legal moves of the current stored position
(`Invalid move`) fails with the corresponding `InvalidMove` error, and a
`MakeMove` on a game whose status is not in-progress fails with the
`InvalidState` error (`Game is not in progress`); in all three cases the
persisted game and session state is returned unchanged. -/
theorem C4_make_move_error_paths (R : ChessRules) (bot : R.Pos → Option R.Move)
    (now : Nat) (st : GState) (move_uci : String) :
    (st.game.status ≠ GameStatus.inProgress →
      make_move R bot now st move_uci =
        ((false, "Game is not in progress", none, none), st))
    ∧ (∀ board, st.game.status = GameStatus.inProgress →
        R.parseFen st.session.current_fen = some board →
        (R.parseUci move_uci = none →
          make_move R bot now st move_uci =
            ((false, "Invalid move format", none, none), st))
        ∧ (∀ move, R.parseUci move_uci = some move →
            R.isLegal board move = false →
            make_move R bot now st move_uci =
              ((false, "Invalid move", none, none), st))) := by
  refine ⟨fun h => by simp [make_move, h], fun board hst hpf => ⟨?_, ?_⟩⟩
  · intro hu
    simp [make_move, hst, hpf, hu]
  · intro move hu hleg
    simp [make_move, hst, hpf, hu, hleg]

/-- A finished game paired with its session, for exercising the
`InvalidState` path. -/
def gameDone : GState :=
  { game :=
      { whitePlayerId := some 1
        blackPlayerId := none
        pgn := some ""
        status := GameStatus.draw
        endedAt := some 9 }
    session :=
      { current_fen := ""
        move_history := []
        last_move_at := 0 } }

/-- A fresh in-progress bot game on the toy instance. -/
def gameLive : GState := api_create_game CR (some 1) none true

theorem C4_make_move_error_paths_witness :
    make_move CR bot0 0 gameDone "a" =
      ((false, "Game is not in progress", none, none), gameDone)
    ∧ make_move CR bot0 0 gameLive "zz" =
      ((false, "Invalid move format", none, none), gameLive)
    ∧ make_move CR bot0 0 gameLive "b" =
      ((false, "Invalid move", none, none), gameLive) :=
  ⟨(C4_make_move_error_paths CR bot0 0 gameDone "a").1 (by decide),
   ((C4_make_move_error_paths CR bot0 0 gameLive "zz").2 [] rfl rfl).1 rfl,
   ((C4_make_move_error_paths CR bot0 0 gameLive "b").2 [] rfl rfl).2 true rfl rfl⟩

/-- C5: in a successful `MakeMove` on an in-progress game whose human ply
does not end the game, a bot reply is requested and (when the engine produces
one) applied exactly when the game has no black-player identity and the
position after the human ply has black to move: the returned `bot_move` and
the appended tail of the move log are the engine's reply precisely under that
condition, and empty otherwise. -/
theorem C5_bot_turn_predicate (R : ChessRules) (bot : R.Pos → Option R.Move)
    (now : Nat) (st : GState) (move_uci : String) (board : R.Pos) (move : R.Move)
    (hst : st.game.status = GameStatus.inProgress)
    (hpf : R.parseFen st.session.current_fen = some board)
    (hu : R.parseUci move_uci = some move)
    (hleg : R.isLegal board move = true)
    (hgr : get_game_result R (R.push board move) = none) :
    (make_move R bot now st move_uci).1.2.2.2 =
      (if st.game.blackPlayerId = none ∧ R.whiteTurn (R.push board move) = false
       then (bot (R.push board move)).map R.uciOf else none)
    ∧ (make_move R bot now st move_uci).2.session.move_history =
      st.session.move_history ++ move_uci ::
        (if st.game.blackPlayerId = none ∧ R.whiteTurn (R.push board move) = false
         then ((bot (R.push board move)).map R.uciOf).toList else []) := by
  simp only [make_move, hst, hpf, hu, hleg, hgr]
  by_cases hc : st.game.blackPlayerId = none ∧ R.whiteTurn (R.push board move) = false
  · simp only [if_pos hc]
    cases hbot : bot (R.push board move) with
    | none => simp [hbot]
    | some botm =>
      cases hgr2 : get_game_result R (R.push (R.push board move) botm) with
      | none => simp [hbot, hgr2]
      | some res2 => simp [hbot, hgr2]
  · simp only [if_neg hc]
    simp

theorem C5_bot_turn_predicate_witness :
    (make_move CR bot0 3 gameLive "a").1.2.2.2 =
      (if gameLive.game.blackPlayerId = none ∧
          CR.whiteTurn (CR.push [] false) = false
       then (bot0 (CR.push [] false)).map CR.uciOf else none)
    ∧ (make_move CR bot0 3 gameLive "a").2.session.move_history =
      gameLive.session.move_history ++ "a" ::
        (if gameLive.game.blackPlayerId = none ∧
            CR.whiteTurn (CR.push [] false) = false
         then ((bot0 (CR.push [] false)).map CR.uciOf).toList else []) :=
  C5_bot_turn_predicate CR bot0 3 gameLive "a" [] false rfl rfl rfl rfl rfl

/-- C6: whenever a ply produces a terminal position — the human ply or the
bot reply — the detected outcome is mapped as the spec states: checkmate is a
win for the side that just moved (the side to move in the mated position is
the loser), while stalemate, insufficient material, repetition, and the
75-move rule each map to a draw.  On a terminal human ply `MakeMove` records
that status, sets the end timestamp, persists the generated game record, and
returns success with no bot reply; on a terminal bot reply it re-evaluates
termination on the position after the bot ply and likewise records the mapped
status, the end timestamp, and the game record generated from the log
including the bot move. -/
theorem C6_terminal_outcome_mapping (R : ChessRules) (bot : R.Pos → Option R.Move)
    (now : Nat) (st : GState) (move_uci : String) (board : R.Pos) (move : R.Move)
    (hst : st.game.status = GameStatus.inProgress)
    (hpf : R.parseFen st.session.current_fen = some board)
    (hu : R.parseUci move_uci = some move)
    (hleg : R.isLegal board move = true) :
    (∀ b : R.Pos, R.isCheckmate b = true →
      get_game_result R b =
        some (if R.whiteTurn b then "black_won" else "white_won"))
    ∧ (∀ b : R.Pos, R.isCheckmate b = false →
        (R.isStalemate b = true ∨ R.isInsufficientMaterial b = true ∨
          R.isRepetition3 b = true) →
        get_game_result R b = some "draw")
    ∧ (∀ b : R.Pos, R.isCheckmate b = false → R.isStalemate b = false →
        R.isInsufficientMaterial b = false → R.isRepetition3 b = false →
        150 ≤ R.halfmoveClock b →
        get_game_result R b = some "draw")
    ∧ (∀ game_result,
        get_game_result R (R.push board move) = some game_result →
        (make_move R bot now st move_uci).1 =
          (true, "Game ended: " ++ game_result,
            some (R.fenOf (R.push board move)), none)
        ∧ (make_move R bot now st move_uci).2.game.status =
            (if game_result = "white_won" then GameStatus.whiteWon
             else if game_result = "black_won" then GameStatus.blackWon
             else GameStatus.draw)
        ∧ (make_move R bot now st move_uci).2.game.endedAt = some now
        ∧ (make_move R bot now st move_uci).2.game.pgn =
            some (R.toPgn (st.session.move_history ++ [move_uci])))
    ∧ (∀ bot_move_obj game_result2,
        get_game_result R (R.push board move) = none →
        st.game.blackPlayerId = none →
        R.whiteTurn (R.push board move) = false →
        bot (R.push board move) = some bot_move_obj →
        get_game_result R (R.push (R.push board move) bot_move_obj) =
          some game_result2 →
        (make_move R bot now st move_uci).1 =
          (true, "Game ended: " ++ game_result2,
            some (R.fenOf (R.push (R.push board move) bot_move_obj)),
            some (R.uciOf bot_move_obj))
        ∧ (make_move R bot now st move_uci).2.game.status =
            (if game_result2 = "black_won" then GameStatus.blackWon
             else if game_result2 = "white_won" then GameStatus.whiteWon
             else GameStatus.draw)
        ∧ (make_move R bot now st move_uci).2.game.endedAt = some now
        ∧ (make_move R bot now st move_uci).2.game.pgn =
            some (R.toPgn (st.session.move_history ++
              [move_uci, R.uciOf bot_move_obj]))) := by
  refine ⟨?_, ?_, ?_, ?_, ?_⟩
  · intro b hc
    simp [get_game_result, hc]
  · intro b hc hd
    rcases hd with h | h | h <;> simp [get_game_result, hc, h]
  · intro b h1 h2 h3 h4 h5
    simp [get_game_result, h1, h2, h3, h4, h5]
  · intro game_result hgr
    simp only [make_move, hst, hpf, hu, hleg, hgr]
    exact ⟨rfl, rfl, rfl, rfl⟩
  · intro bot_move_obj game_result2 hgr hbp hwt hbot hgr2
    have hc : st.game.blackPlayerId = none ∧
        R.whiteTurn (R.push board move) = false := ⟨hbp, hwt⟩
    simp only [make_move, hst, hpf, hu, hleg, hgr, if_pos hc, hbot, hgr2]
    refine ⟨rfl, rfl, rfl, ?_⟩
    simp

/-- A second toy rules capability, identical to `CR` except that checkmate
occurs at two-ply positions, so a terminal position can be produced by the
bot's reply. -/
@[reducible] def CR2 : ChessRules where
  Pos := List Bool
  Move := Bool
  startPos := []
  fenOf p := String.mk (p.map moveChar)
  parseFen s := decodeChars s.data
  parseUci s := if s = "a" then some false else if s = "b" then some true else none
  uciOf m := if m then "b" else "a"
  isLegal _ m := !m
  push p m := p ++ [m]
  whiteTurn p := p.length % 2 == 0
  isCheckmate p := p.length == 2
  isStalemate _ := false
  isInsufficientMaterial _ := false
  isRepetition3 _ := false
  halfmoveClock _ := 0
  toPgn _ := ""
  parseFen_fenOf := by intro p; exact decodeChars_encode p
  parseUci_uciOf := by intro m; cases m <;> rfl

/-- A toy engine oracle for `CR2`: reply with the always-legal move at
one-ply positions. -/
def bot2 : CR2.Pos → Option CR2.Move :=
  fun p => if p.length == 1 then some false else none

/-- A fresh in-progress bot game on the second toy instance. -/
def stFresh2 : GState := api_create_game CR2 (some 1) none true

theorem C6_terminal_outcome_mapping_witness :
    ((make_move CR bot0 11 stAfterMove "a").1 =
        (true, "Game ended: " ++ "white_won",
          some (CR.fenOf (CR.push [false, false] false)), none)
      ∧ (make_move CR bot0 11 stAfterMove "a").2.game.status =
          (if "white_won" = "white_won" then GameStatus.whiteWon
           else if "white_won" = "black_won" then GameStatus.blackWon
           else GameStatus.draw)
      ∧ (make_move CR bot0 11 stAfterMove "a").2.game.endedAt = some 11
      ∧ (make_move CR bot0 11 stAfterMove "a").2.game.pgn =
          some (CR.toPgn (stAfterMove.session.move_history ++ ["a"])))
    ∧ ((make_move CR2 bot2 5 stFresh2 "a").1 =
        (true, "Game ended: " ++ "black_won",
          some (CR2.fenOf (CR2.push (CR2.push [] false) false)),
          some (CR2.uciOf false))
      ∧ (make_move CR2 bot2 5 stFresh2 "a").2.game.status =
          (if "black_won" = "black_won" then GameStatus.blackWon
           else if "black_won" = "white_won" then GameStatus.whiteWon
           else GameStatus.draw)
      ∧ (make_move CR2 bot2 5 stFresh2 "a").2.game.endedAt = some 5
      ∧ (make_move CR2 bot2 5 stFresh2 "a").2.game.pgn =
          some (CR2.toPgn (stFresh2.session.move_history ++
            ["a", CR2.uciOf false]))) :=
  ⟨(C6_terminal_outcome_mapping CR bot0 11 stAfterMove "a" [false, false] false
      rfl rfl rfl rfl).2.2.2.1 "white_won" rfl,
   (C6_terminal_outcome_mapping CR2 bot2 5 stFresh2 "a" [] false
      rfl rfl rfl rfl).2.2.2.2 false "black_won" rfl rfl rfl rfl rfl⟩

/-- C7: creating a game through the endpoint with `is_bot_game = true`
yields a game whose black-player identity is absent, whatever black-player
value the caller supplied. -/
theorem C7_bot_game_black_absent (R : ChessRules)
    (white_player_id black_player_id : Option Nat) :
    (api_create_game R white_player_id black_player_id true).game.blackPlayerId =
      none := rfl

/-! ## Undo -/

/-- C3: on a session whose stored log has length `L`, for any
`1 ≤ count ≤ L` whose replayed prefix parses, `UndoMove(count)` succeeds,
sets the position encoding to the replay of the first `L − count` logged
moves from the canonical starting position, truncates the stored log to that
prefix, and — when the game's status was not in-progress — resets the status
to in-progress and clears the end timestamp and the game record.  (The
parseability hypothesis is the session-consistency invariant of C1; a log
that fails it is the corrupt case treated by C8.) -/
theorem C3_undo_replays_prefix (R : ChessRules) (now : Nat) (st : GState)
    (num_moves : Nat)
    (h1 : 1 ≤ num_moves)
    (h2 : num_moves ≤ st.session.move_history.length)
    (h3 : ∀ m ∈ st.session.move_history.take
        (st.session.move_history.length - num_moves), (R.parseUci m).isSome) :
    ∃ p, replayO R (st.session.move_history.take
        (st.session.move_history.length - num_moves)) = some p
      ∧ (undo_move R now st num_moves).1 =
          (true, "Undid " ++ toString num_moves ++ " move(s)", some (R.fenOf p))
      ∧ (undo_move R now st num_moves).2.session.current_fen = R.fenOf p
      ∧ (undo_move R now st num_moves).2.session.move_history =
          st.session.move_history.take
            (st.session.move_history.length - num_moves)
      ∧ (st.game.status ≠ GameStatus.inProgress →
          (undo_move R now st num_moves).2.game.status = GameStatus.inProgress
          ∧ (undo_move R now st num_moves).2.game.endedAt = none
          ∧ (undo_move R now st num_moves).2.game.pgn = none) := by
  have hlen : ¬ st.session.move_history.length < num_moves := not_lt.mpr h2
  have hdp : dropLastPy st.session.move_history num_moves =
      st.session.move_history.take (st.session.move_history.length - num_moves) := by
    unfold dropLastPy
    rw [if_neg (by omega : ¬ num_moves = 0)]
  obtain ⟨p, hp⟩ := replayFrom_isSome R
    (st.session.move_history.take (st.session.move_history.length - num_moves))
    R.startPos h3
  have hrep : replayO R (st.session.move_history.take
      (st.session.move_history.length - num_moves)) = some p := hp
  refine ⟨p, hrep, ?_, ?_, ?_, ?_⟩
  · simp only [undo_move, hdp, if_neg hlen, hrep]
  · simp only [undo_move, hdp, if_neg hlen, hrep]
  · simp only [undo_move, hdp, if_neg hlen, hrep]
  · intro hterm
    simp only [undo_move, hdp, if_neg hlen, hrep, if_pos hterm]
    exact ⟨trivial, trivial, trivial⟩

/-- A finished toy game whose two-ply log consists of legal moves. -/
def stEnded : GState :=
  { game :=
      { whitePlayerId := some 1
        blackPlayerId := none
        pgn := some "x"
        status := GameStatus.whiteWon
        endedAt := some 5 }
    session :=
      { current_fen := "aa"
        move_history := ["a", "a"]
        last_move_at := 2 } }

theorem C3_undo_replays_prefix_witness :
    ∃ p, replayO CR (stEnded.session.move_history.take
        (stEnded.session.move_history.length - 1)) = some p
      ∧ (undo_move CR 4 stEnded 1).1 =
          (true, "Undid " ++ toString 1 ++ " move(s)", some (CR.fenOf p))
      ∧ (undo_move CR 4 stEnded 1).2.session.current_fen = CR.fenOf p
      ∧ (undo_move CR 4 stEnded 1).2.session.move_history =
          stEnded.session.move_history.take (stEnded.session.move_history.length - 1)
      ∧ (stEnded.game.status ≠ GameStatus.inProgress →
          (undo_move CR 4 stEnded 1).2.game.status = GameStatus.inProgress
          ∧ (undo_move CR 4 stEnded 1).2.game.endedAt = none
          ∧ (undo_move CR 4 stEnded 1).2.game.pgn = none) :=
  C3_undo_replays_prefix CR 4 stEnded 1 (by decide) (by decide) (by decide)

/-- C8, counterexample to the claim as stated: an in-progress toy game whose
log starts with the parseable move `"b"`, which is not legal in the
reconstructed starting position. -/
def stIllegalLog : GState :=
  { game :=
      { whitePlayerId := some 1
        blackPlayerId := some 2
        pgn := none
        status := GameStatus.inProgress
        endedAt := none }
    session :=
      { current_fen := "ba"
        move_history := ["b", "a"]
        last_move_at := 0 } }

/-- C8 counterexample: the first replayed logged move parses but is not legal
in the incrementally reconstructed position, yet `undo_move` succeeds and
persists the position obtained by pushing the illegal move — the replay loop
re-parses each logged move but never re-checks legality (`board.push` applies
it unconditionally), so no `CorruptState` error is raised. -/
theorem C8_counterexample_illegal_logged_move :
    CR.parseUci "b" = some true
    ∧ CR.isLegal CR.startPos true = false
    ∧ dropLastPy stIllegalLog.session.move_history 1 = ["b"]
    ∧ (undo_move CR 0 stIllegalLog 1).1.1 = true
    ∧ (undo_move CR 0 stIllegalLog 1).2.session.current_fen =
        CR.fenOf (CR.push CR.startPos true) := by
  decide

/-- C8 as amended: the replay of `UndoMove` fails with the `CorruptState`
error (`Invalid move in history`), leaving the state unchanged, when a logged
move among the replayed first `L − count` entries fails to parse as a move;
parseable logged moves are replayed without a legality re-check. -/
theorem C8_undo_unparseable_history (R : ChessRules) (now : Nat) (st : GState)
    (num_moves : Nat)
    (h2 : num_moves ≤ st.session.move_history.length)
    (hbad : ∃ m ∈ dropLastPy st.session.move_history num_moves,
      R.parseUci m = none) :
    undo_move R now st num_moves = ((false, "Invalid move in history", none), st) := by
  have hlen : ¬ st.session.move_history.length < num_moves := not_lt.mpr h2
  have hnone : replayO R (dropLastPy st.session.move_history num_moves) = none :=
    replayFrom_none_of_bad R _ R.startPos hbad
  simp only [undo_move, if_neg hlen, hnone]

/-- A toy game whose log holds a string no move parser accepts. -/
def stBadLog : GState :=
  { game :=
      { whitePlayerId := some 1
        blackPlayerId := some 2
        pgn := none
        status := GameStatus.inProgress
        endedAt := none }
    session :=
      { current_fen := "za"
        move_history := ["zz", "a"]
        last_move_at := 0 } }

theorem C8_undo_unparseable_history_witness :
    undo_move CR 0 stBadLog 1 = ((false, "Invalid move in history", none), stBadLog) :=
  C8_undo_unparseable_history CR 0 stBadLog 1 (by decide) (by decide)

/-! ## Puzzle attempts -/

/-- A well-formed toy puzzle: a non-empty two-move solution, each move legal
in sequence from the puzzle's starting position. -/
def puzzleTwoPly : Puzzle :=
  { fen := ""
    moves := some ["a", "a"]
    difficulty := PuzzleDifficulty.easy }

/-- C2 fails on the code: evaluation at the failing input.  `puzzleTwoPly`
has a non-empty stored solution whose moves are each legal in sequence, so
the progress-reconstruction loop of `attempt_puzzle` replays the *entire*
stored solution and reports the puzzle as already solved; submitting the
correct first solution move on a fresh attempt therefore returns
`correct = false`, message `Puzzle already solved`, `is_complete = true`, and
never reaches the comparison/advancement step the spec describes. -/
theorem C2_correct_first_move_reports_already_solved :
    solutionList puzzleTwoPly = ["a", "a"]
    ∧ CR.parseUci "a" = some false
    ∧ CR.isLegal CR.startPos false = true
    ∧ CR.isLegal (CR.push CR.startPos false) false = true
    ∧ attempt_puzzle CR 0 1 (some puzzleTwoPly) "a" (some 1) none =
        ((false, "Puzzle already solved", none, true), none) := by
  decide

/-- A stored statistics row used to observe frame effects. -/
def row0 : UserPuzzle :=
  { user_id := 1
    puzzle_id := 1
    solved := 2
    failed := 3
    best_time_seconds := none
    last_attempted_at := some 9 }

/-- A puzzle whose starting position encoding does not parse. -/
def puzzleBadFen : Puzzle :=
  { fen := "z"
    moves := some ["a"]
    difficulty := PuzzleDifficulty.easy }

/-- C10: with a user identity supplied, `attempt_puzzle` touches the user's
statistics row only on the paths that actually compare the submitted move
against the expected next solution move — when the puzzle is absent, when its
solution decodes to nothing, when its starting position fails to parse, when
the replay reports the puzzle already solved, or when the submitted move
string fails to parse, the stored row (counters and last-attempt timestamp)
is returned unchanged. -/
theorem C10_stats_frame_on_non_comparison_paths (R : ChessRules) (now : Nat)
    (puzzle_id : Nat) (puzzle? : Option Puzzle) (move_uci : String)
    (user_id : Option Nat) (stat? : Option UserPuzzle) :
    (puzzle? = none →
      (attempt_puzzle R now puzzle_id puzzle? move_uci user_id stat?).2 = stat?)
    ∧ (∀ pz, puzzle? = some pz → solutionList pz = [] →
        (attempt_puzzle R now puzzle_id puzzle? move_uci user_id stat?).2 = stat?)
    ∧ (∀ pz, puzzle? = some pz → R.parseFen pz.fen = none →
        (attempt_puzzle R now puzzle_id puzzle? move_uci user_id stat?).2 = stat?)
    ∧ (∀ pz board, puzzle? = some pz → R.parseFen pz.fen = some board →
        (solutionList pz).length ≤ (puzzleReplay R board (solutionList pz)).2 →
        (attempt_puzzle R now puzzle_id puzzle? move_uci user_id stat?).2 = stat?)
    ∧ (R.parseUci move_uci = none →
        (attempt_puzzle R now puzzle_id puzzle? move_uci user_id stat?).2 = stat?) := by
  refine ⟨?_, ?_, ?_, ?_, ?_⟩
  · intro h; subst h; simp [attempt_puzzle]
  · intro pz hpz hsol; subst hpz; simp [attempt_puzzle, hsol]
  · intro pz hpz hfen; subst hpz
    by_cases hsol : solutionList pz = []
    · simp [attempt_puzzle, hsol]
    · simp [attempt_puzzle, hsol, hfen]
  · intro pz board hpz hfen hidx; subst hpz
    by_cases hsol : solutionList pz = []
    · simp [attempt_puzzle, hsol]
    · simp [attempt_puzzle, hsol, hfen, hidx]
  · intro hu
    cases puzzle? with
    | none => simp [attempt_puzzle]
    | some pz =>
      by_cases hsol : solutionList pz = []
      · simp [attempt_puzzle, hsol]
      · cases hfen : R.parseFen pz.fen with
        | none => simp [attempt_puzzle, hsol, hfen]
        | some board =>
          by_cases hidx : (solutionList pz).length ≤
              (puzzleReplay R board (solutionList pz)).2
          · simp [attempt_puzzle, hsol, hfen, hidx]
          · simp [attempt_puzzle, hsol, hfen, hidx, hu]

theorem C10_stats_frame_on_non_comparison_paths_witness :
    (attempt_puzzle CR 0 1 none "a" (some 1) (some row0)).2 = some row0
    ∧ (attempt_puzzle CR 0 1 (some puzzleBadFen) "a" (some 1) (some row0)).2 =
        some row0
    ∧ (attempt_puzzle CR 0 1 (some puzzleBadFen) "zz" (some 1) (some row0)).2 =
        some row0 :=
  ⟨(C10_stats_frame_on_non_comparison_paths CR 0 1 none "a" (some 1)
      (some row0)).1 rfl,
   (C10_stats_frame_on_non_comparison_paths CR 0 1 (some puzzleBadFen) "a"
      (some 1) (some row0)).2.2.1 puzzleBadFen rfl rfl,
   (C10_stats_frame_on_non_comparison_paths CR 0 1 (some puzzleBadFen) "zz"
      (some 1) (some row0)).2.2.2.2 rfl⟩

/-! ## User statistics aggregation -/

theorem pyMin_eq_none_iff (l : List ℚ) : pyMin l = none ↔ l = [] := by
  cases l with
  | nil => simp [pyMin]
  | cons t rest =>
    simp only [pyMin]
    cases pyMin rest <;> simp

theorem pyMin_spec (l : List ℚ) (m : ℚ) (h : pyMin l = some m) :
    m ∈ l ∧ ∀ x ∈ l, m ≤ x := by
  induction l generalizing m with
  | nil => cases h
  | cons t rest ih =>
    simp only [pyMin] at h
    cases hr : pyMin rest with
    | none =>
      rw [hr] at h
      injection h with h
      subst h
      have hre : rest = [] := (pyMin_eq_none_iff rest).mp hr
      subst hre
      exact ⟨by simp, by simp⟩
    | some mr =>
      rw [hr] at h
      injection h with h
      subst h
      obtain ⟨hmem, hbound⟩ := ih mr hr
      rcases le_total t mr with hle | hle
      · rw [min_eq_left hle]
        refine ⟨List.mem_cons_self t rest, ?_⟩
        intro x hx
        rcases List.mem_cons.mp hx with rfl | hx'
        · exact le_refl x
        · exact le_trans hle (hbound x hx')
      · rw [min_eq_right hle]
        refine ⟨List.mem_cons_of_mem t hmem, ?_⟩
        intro x hx
        rcases List.mem_cons.mp hx with rfl | hx'
        · exact hle
        · exact hbound x hx'

/-- The difficulty classification of the puzzle a statistics row refers to,
as resolved by the `get_puzzle` lookup inside the grouping loop. -/
def diffOf (lookup : Nat → Option Puzzle) (up : UserPuzzle) :
    Option PuzzleDifficulty :=
  (lookup up.puzzle_id).map (fun pz => pz.difficulty)

/-- The statistics rows whose puzzle resolves to difficulty `d`. -/
def rowsWithDiff (lookup : Nat → Option Puzzle) (d : PuzzleDifficulty)
    (rows : List UserPuzzle) : List UserPuzzle :=
  rows.filter (fun up => diffOf lookup up = some d)

theorem lookupDiff_bumpDiff (acc : List (PuzzleDifficulty × Nat × Nat))
    (d d' : PuzzleDifficulty) (s f : Nat) :
    lookupDiff (bumpDiff acc d s f) d' =
      if d = d' then
        (match lookupDiff acc d' with
         | some (s0, f0) => some (s0 + s, f0 + f)
         | none => some (s, f))
      else lookupDiff acc d' := by
  induction acc with
  | nil =>
    by_cases hd : d = d'
    · subst hd; simp [bumpDiff, lookupDiff]
    · simp [bumpDiff, lookupDiff, hd]
  | cons e rest ih =>
    obtain ⟨d0, s0, f0⟩ := e
    by_cases h0 : d0 = d
    · subst h0
      by_cases h1 : d0 = d'
      · subst h1; simp [bumpDiff, lookupDiff]
      · simp [bumpDiff, lookupDiff, h1]
    · by_cases h1 : d0 = d'
      · subst h1
        have hdd : ¬ d = d0 := fun hh => h0 hh.symm
        simp [bumpDiff, lookupDiff, h0, hdd]
      · simp [bumpDiff, lookupDiff, h0, h1, ih]

theorem lookupDiff_diffFold (lookup : Nat → Option Puzzle)
    (d : PuzzleDifficulty) (rows : List UserPuzzle)
    (acc : List (PuzzleDifficulty × Nat × Nat))
    (h : ∀ up ∈ rows, (lookup up.puzzle_id).isSome) :
    lookupDiff (diffFold lookup acc rows) d =
      match lookupDiff acc d with
      | some (s0, f0) =>
        some (s0 + ((rowsWithDiff lookup d rows).map (fun up => up.solved)).sum,
              f0 + ((rowsWithDiff lookup d rows).map (fun up => up.failed)).sum)
      | none =>
        if rowsWithDiff lookup d rows = [] then none
        else some (((rowsWithDiff lookup d rows).map (fun up => up.solved)).sum,
                   ((rowsWithDiff lookup d rows).map (fun up => up.failed)).sum) := by
  induction rows generalizing acc with
  | nil =>
    simp only [diffFold, rowsWithDiff, List.filter_nil]
    cases lookupDiff acc d with
    | none => simp
    | some p => obtain ⟨s0, f0⟩ := p; simp
  | cons up rest ih =>
    have hup := h up (List.mem_cons_self up rest)
    obtain ⟨pz, hpz⟩ := Option.isSome_iff_exists.mp hup
    have hrest : ∀ u ∈ rest, (lookup u.puzzle_id).isSome :=
      fun u hu => h u (List.mem_cons_of_mem up hu)
    simp only [diffFold, hpz]
    rw [ih _ hrest, lookupDiff_bumpDiff]
    by_cases hd : pz.difficulty = d
    · have hfil : rowsWithDiff lookup d (up :: rest) =
          up :: rowsWithDiff lookup d rest := by
        simp [rowsWithDiff, List.filter_cons, diffOf, hpz, hd]
      rw [if_pos hd, hfil]
      cases hacc : lookupDiff acc d with
      | none => simp
      | some p =>
        obtain ⟨s0, f0⟩ := p
        simp [Nat.add_assoc]
    · have hfil : rowsWithDiff lookup d (up :: rest) =
          rowsWithDiff lookup d rest := by
        simp [rowsWithDiff, List.filter_cons, diffOf, hpz, hd]
      rw [if_neg hd, hfil]

/-- C9 as amended: `get_user_stats` returns the sums of the solved and
failed counters over the user's rows; a success rate of
solved/(solved+failed)×100 rounded to two decimals, `0` when there are no
attempts; a best time equal to the minimum best-time value across the rows
whose recorded best time is truthy — a recorded best time of `0` is treated
as absent, and the result is absent when no row records a truthy best time;
and per-difficulty solved/failed sums over the rows grouped by each attempted
puzzle's difficulty classification. -/
theorem C9_user_stats_aggregation (lookup : Nat → Option Puzzle)
    (user_id : Nat) (rows : List UserPuzzle)
    (h : ∀ up ∈ rows, (lookup up.puzzle_id).isSome) :
    (get_user_stats lookup user_id rows).total_solved =
        (rows.map (fun up => up.solved)).sum
    ∧ (get_user_stats lookup user_id rows).total_failed =
        (rows.map (fun up => up.failed)).sum
    ∧ (get_user_stats lookup user_id rows).success_rate =
        (if (rows.map (fun up => up.solved)).sum +
            (rows.map (fun up => up.failed)).sum = 0 then 0
         else round2 ((((rows.map (fun up => up.solved)).sum : Nat) : ℚ) /
           (((rows.map (fun up => up.solved)).sum +
             (rows.map (fun up => up.failed)).sum : Nat) : ℚ) * 100))
    ∧ ((get_user_stats lookup user_id rows).best_time_seconds = none ↔
        rows.filterMap (fun up => truthyTime up.best_time_seconds) = [])
    ∧ (∀ m, (get_user_stats lookup user_id rows).best_time_seconds = some m →
        m ∈ rows.filterMap (fun up => truthyTime up.best_time_seconds)
        ∧ ∀ t ∈ rows.filterMap (fun up => truthyTime up.best_time_seconds), m ≤ t)
    ∧ (∀ d, lookupDiff (get_user_stats lookup user_id rows).puzzles_by_difficulty d =
        (if rowsWithDiff lookup d rows = [] then none
         else some (((rowsWithDiff lookup d rows).map (fun up => up.solved)).sum,
                    ((rowsWithDiff lookup d rows).map (fun up => up.failed)).sum))) := by
  refine ⟨rfl, rfl, ?_, ?_, ?_, ?_⟩
  · by_cases h0 : (rows.map (fun up => up.solved)).sum +
        (rows.map (fun up => up.failed)).sum = 0
    · simp [get_user_stats, h0, round2]
    · have h1 : 0 < (rows.map (fun up => up.solved)).sum +
          (rows.map (fun up => up.failed)).sum := Nat.pos_of_ne_zero h0
      change round2 (if 0 < (rows.map (fun up => up.solved)).sum +
          (rows.map (fun up => up.failed)).sum then
          ((((rows.map (fun up => up.solved)).sum : Nat)) : ℚ) /
            ((((rows.map (fun up => up.solved)).sum +
               (rows.map (fun up => up.failed)).sum : Nat)) : ℚ) * 100
        else 0) = _
      rw [if_pos h1, if_neg h0]
  · exact pyMin_eq_none_iff _
  · intro m hm
    exact pyMin_spec _ m hm
  · intro d
    exact lookupDiff_diffFold lookup d rows [] h

/-- A statistics row whose recorded best time is exactly zero. -/
def rowZeroTime : UserPuzzle :=
  { user_id := 1
    puzzle_id := 1
    solved := 2
    failed := 3
    best_time_seconds := some 0
    last_attempted_at := none }

/-- C9 counterexample to the claim as stated: a row with a *recorded* best
time of `0` exists, so the minimum best time across rows with a recorded best
time is `0`, yet `get_user_stats` reports the best time as absent — the
source filters with Python truthiness (`if up.best_time_seconds`), which
drops a recorded `0.0` along with `None`. -/
theorem C9_counterexample_zero_best_time :
    (get_user_stats (fun _ => some puzzleTwoPly) 1 [rowZeroTime]).best_time_seconds =
        none
    ∧ [rowZeroTime].filterMap (fun up => up.best_time_seconds) = [0]
    ∧ pyMin ([rowZeroTime].filterMap (fun up => up.best_time_seconds)) = some 0 := by
  refine ⟨rfl, rfl, rfl⟩

/-- A second toy puzzle of a different difficulty for the aggregation
witness. -/
def puzzleHardW : Puzzle :=
  { fen := ""
    moves := some ["a"]
    difficulty := PuzzleDifficulty.hard }

/-- A two-row puzzle lookup table for the aggregation witness. -/
def lookupW : Nat → Option Puzzle :=
  fun n => if n = 1 then some puzzleTwoPly
    else if n = 2 then some puzzleHardW else none

/-- Two statistics rows for the aggregation witness. -/
def rowsW : List UserPuzzle :=
  [{ user_id := 1, puzzle_id := 1, solved := 2, failed := 1,
     best_time_seconds := some 5, last_attempted_at := some 4 },
   { user_id := 1, puzzle_id := 2, solved := 0, failed := 1,
     best_time_seconds := none, last_attempted_at := some 3 }]

theorem C9_user_stats_aggregation_witness :
    (get_user_stats lookupW 1 rowsW).total_solved =
        (rowsW.map (fun up => up.solved)).sum
    ∧ (get_user_stats lookupW 1 rowsW).total_failed =
        (rowsW.map (fun up => up.failed)).sum
    ∧ (get_user_stats lookupW 1 rowsW).success_rate =
        (if (rowsW.map (fun up => up.solved)).sum +
            (rowsW.map (fun up => up.failed)).sum = 0 then 0
         else round2 ((((rowsW.map (fun up => up.solved)).sum : Nat) : ℚ) /
           (((rowsW.map (fun up => up.solved)).sum +
             (rowsW.map (fun up => up.failed)).sum : Nat) : ℚ) * 100))
    ∧ ((get_user_stats lookupW 1 rowsW).best_time_seconds = none ↔
        rowsW.filterMap (fun up => truthyTime up.best_time_seconds) = [])
    ∧ (∀ m, (get_user_stats lookupW 1 rowsW).best_time_seconds = some m →
        m ∈ rowsW.filterMap (fun up => truthyTime up.best_time_seconds)
        ∧ ∀ t ∈ rowsW.filterMap (fun up => truthyTime up.best_time_seconds), m ≤ t)
    ∧ (∀ d, lookupDiff (get_user_stats lookupW 1 rowsW).puzzles_by_difficulty d =
        (if rowsWithDiff lookupW d rowsW = [] then none
         else some (((rowsWithDiff lookupW d rowsW).map (fun up => up.solved)).sum,
                    ((rowsWithDiff lookupW d rowsW).map (fun up => up.failed)).sum))) :=
  C9_user_stats_aggregation lookupW 1 rowsW (by decide)
